import Mathlib

/-!
Verification of the MY-TTT course-builder pipeline.

This file gives a shallow embedding of the core pipeline of the repository:
the data model (`types.ts`), the Gemini service layer (`geminiService.ts`:
`generateCourseStructure`, `generateFinalPlanContent`, `refineContent`), the
wizard navigation of `App.tsx` (`advanceStep`, the progress-bar buttons,
`handleRefine`), and the continuous module numbering of the
`SessionPlanTable` component.

The remote generative-text capability is modelled as an oracle: a function
from the position of a call (day index, module index) to the outcome of that
call, either a thrown error (`Except.error ()`) or a parsed response record.
JavaScript string primitives used by the code (`toLowerCase`, `trim`,
`includes`, the `||` falsy-fallback operator) are modelled over `List Char`
so that every definition is executable.
-/

/-- Model of the JavaScript `toLowerCase` primitive. -/
def jsToLower (s : String) : String := ⟨s.data.map Char.toLower⟩

/-- Model of the JavaScript `trim` primitive: strip whitespace at both ends. -/
def jsTrim (s : String) : String :=
  ⟨((s.data.dropWhile Char.isWhitespace).reverse.dropWhile Char.isWhitespace).reverse⟩

/-- Whether the first list is a leading block of the second. -/
def charsStartWith : List Char → List Char → Bool
  | [], _ => true
  | _ :: _, [] => false
  | p :: ps, c :: cs => p == c && charsStartWith ps cs

/-- Whether the pattern occurs as a contiguous block of the second list. -/
def charsContain (pat : List Char) : List Char → Bool
  | [] => charsStartWith pat []
  | c :: cs => charsStartWith pat (c :: cs) || charsContain pat cs

/-- Model of the JavaScript `String.prototype.includes`. -/
def jsIncludes (s pat : String) : Bool := charsContain pat.data s.data

/-- Model of the JavaScript `a || b` fallback on an optional string: a missing
(`undefined`/`null`) or empty string is falsy and selects the fallback. -/
def jsOrStr (v : Option String) (fallback : String) : String :=
  match v with
  | none => fallback
  | some s => if s = "" then fallback else s

/-- Model of the JavaScript `a || b` fallback on an optional array: only a
missing (`undefined`/`null`) array is falsy; an empty array is kept. -/
def jsOrList (v : Option (List String)) (fallback : List String) : List String :=
  match v with
  | none => fallback
  | some l => l

/-- Course basics, from `types.ts` (`CourseBasics`). -/
structure CourseBasics where
  trainerName : String
  courseTitle : String
  duration : String
  location : String
deriving DecidableEq

/-- A learning outcome, from `types.ts` (`LearningOutcome`). -/
structure LearningOutcome where
  id : String
  text : String
deriving DecidableEq

/-- An ice breaker, from `types.ts` (`IceBreaker`). -/
structure IceBreaker where
  title : String
  description : String
  duration : String
deriving DecidableEq

/-- A module of the course, from `types.ts` (`ModuleContent`). The optional
`slideNumbers` field mirrors the optional TypeScript field. -/
structure ModuleContent where
  id : String
  title : String
  subModules : List String
  methodology : String
  resources : String
  duration : String
  slideNumbers : Option String := none
deriving DecidableEq

/-- One day of the schedule, from `types.ts` (`DayPlan`); `recap` is present
only for day two onwards. -/
structure DayPlan where
  dayNumber : Int
  iceBreaker : IceBreaker
  recap : Option String := none
  modules : List ModuleContent
  summary : String
  reviewQuestions : List String
deriving DecidableEq

/-- The canonical document, from `types.ts` (`CoursePlan`). -/
structure CoursePlan where
  basics : CourseBasics
  outcomes : List LearningOutcome
  schedule : List DayPlan
deriving DecidableEq

/-- Day count derived from the free-text duration descriptor, from
`generateCourseStructure`: four independent `includes` checks on the
lowercased descriptor, each overwriting the previous value, starting at 1. -/
def computeNumDays (duration : String) : Nat :=
  let durationLower := jsToLower duration
  let n0 := 1
  let n1 := if jsIncludes durationLower "2 day" then 2 else n0
  let n2 := if jsIncludes durationLower "3 day" then 3 else n1
  let n3 := if jsIncludes durationLower "4 day" then 4 else n2
  if jsIncludes durationLower "5 day" then 5 else n3

/-- One module of the parsed structure-generation response: `id` is optional
in the response schema, `title` and `duration` are required. -/
structure RawModule where
  id : Option String
  title : String
  duration : String
deriving DecidableEq

/-- One day of the parsed structure-generation response. -/
structure RawDay where
  dayNumber : Int
  modules : List RawModule
deriving DecidableEq

/-- Environment of `generateCourseStructure`: the API key visible to
`getClient`, the outcome of the remote structure call (thrown error or parsed
response array), and the `Date.now()` timestamp used to mint module ids. -/
structure StructEnv where
  apiKey : Option String
  structResp : Except Unit (List RawDay)
  now : Nat

/-- Hydration of the raw modules of one response day, from the inner
`d.modules.map` of `generateCourseStructure`: a missing or empty response id
is replaced by a minted `d<dayIdx>-m<modIdx>-<timestamp>` id, and all content
fields start empty. -/
def hydrateModules (dIdx now : Nat) : Nat → List RawModule → List ModuleContent
  | _, [] => []
  | mIdx, m :: rest =>
      { id := jsOrStr m.id ("d" ++ toString dIdx ++ "-m" ++ toString mIdx ++ "-" ++ toString now)
        title := m.title
        duration := m.duration
        subModules := []
        methodology := ""
        resources := ""
        slideNumbers := none } :: hydrateModules dIdx now (mIdx + 1) rest

/-- Hydration of the parsed response days, from the `rawDays.map` of
`generateCourseStructure`: day number copied from the response, empty ice
breaker, recap placeholder for day numbers above 1, placeholder summary and
empty review questions. -/
def hydrateDays (now : Nat) : Nat → List RawDay → List DayPlan
  | _, [] => []
  | dIdx, d :: rest =>
      { dayNumber := d.dayNumber
        iceBreaker := { title := "", description := "", duration := "" }
        recap := if d.dayNumber > 1 then some "Recap of previous day" else none
        summary := "Key takeaways and Q&A"
        reviewQuestions := []
        modules := hydrateModules dIdx now 0 d.modules } :: hydrateDays now (dIdx + 1) rest

/-- The structure generator, from `generateCourseStructure` in
`geminiService.ts`. The derived `computeNumDays` count only parameterizes the
prompt sent to the remote capability; the returned skeletons are the hydrated
response days. A missing API key or a failed remote call raises an error. -/
def generateCourseStructure (env : StructEnv) (basics : CourseBasics)
    (outcomes : List LearningOutcome) : Except Unit (List DayPlan) :=
  match env.apiKey with
  | none => Except.error ()
  | some _ =>
      match env.structResp with
      | Except.error _ => Except.error ()
      | Except.ok rawDays => Except.ok (hydrateDays env.now 0 rawDays)

/-- Parsed response of the day-summary call inside `generateFinalPlanContent`:
both fields may be missing from the parsed JSON. -/
structure SummaryResp where
  summary : Option String
  reviewQuestions : Option (List String)
deriving DecidableEq

/-- Environment of `generateFinalPlanContent`: the API key, the outcome of the
module-detail call at each (day index, module index), and the outcome of the
day-summary call at each day index. -/
structure GenEnv where
  apiKey : Option String
  detail : Nat → Nat → Except Unit ModuleContent
  daySummary : Nat → Except Unit SummaryResp

/-- Per-module body of the orchestrator loop, from the try/catch in
`generateFinalPlanContent`: on success the parsed detail record is pushed with
the skeleton module's id and title re-applied; on a thrown error the skeleton
module is pushed with the sentinel methodology text. -/
def processModule (env : GenEnv) (d m : Nat) (orig : ModuleContent) : ModuleContent :=
  match env.detail d m with
  | Except.ok fullMod => { fullMod with id := orig.id, title := orig.title }
  | Except.error _ => { orig with methodology := "Error generating content." }

/-- The inner module loop of `generateFinalPlanContent`: first component is
the `refinedModules` array, second the sequence of progress messages emitted
to the optional `onProgress` sink (empty when the sink is absent). -/
def moduleLoop (env : GenEnv) (d : Nat) (dayNumber : Int) (hasProgress : Bool) :
    Nat → List ModuleContent → List ModuleContent × List String
  | _, [] => ([], [])
  | m, orig :: rest =>
      (processModule env d m orig :: (moduleLoop env d dayNumber hasProgress (m + 1) rest).1,
       (if hasProgress then
          ["Writing content for Day " ++ toString dayNumber ++ ": " ++ orig.title ++ "..."]
        else []) ++ (moduleLoop env d dayNumber hasProgress (m + 1) rest).2)

/-- Day finalization, from the summary block of `generateFinalPlanContent`: a
thrown or unparsable day-summary call keeps the skeleton's summary and review
questions; a parsed response falls back field-by-field through the `||`
operator (a missing or empty summary keeps the placeholder summary, a missing
review-question array keeps the placeholder array). -/
def finalizeDay (env : GenEnv) (d : Nat) (day : DayPlan)
    (refinedModules : List ModuleContent) : DayPlan :=
  let summaryData :=
    match env.daySummary d with
    | Except.error _ => (day.summary, day.reviewQuestions)
    | Except.ok parsed =>
        (jsOrStr parsed.summary day.summary, jsOrList parsed.reviewQuestions day.reviewQuestions)
  { day with modules := refinedModules, summary := summaryData.1,
             reviewQuestions := summaryData.2 }

/-- The outer day loop of `generateFinalPlanContent`: modules first, then the
day-summary call, then the finalized day is appended; the second component is
the full progress-message trace. -/
def dayLoop (env : GenEnv) (hasProgress : Bool) : Nat → List DayPlan → List DayPlan × List String
  | _, [] => ([], [])
  | d, day :: rest =>
      (finalizeDay env d day (moduleLoop env d day.dayNumber hasProgress 0 day.modules).1 ::
         (dayLoop env hasProgress (d + 1) rest).1,
       (moduleLoop env d day.dayNumber hasProgress 0 day.modules).2 ++
         (if hasProgress then ["Finalizing Day " ++ toString day.dayNumber ++ " summary..."]
          else []) ++
         (dayLoop env hasProgress (d + 1) rest).2)

/-- The Plan Assembly Orchestrator, from `generateFinalPlanContent` in
`geminiService.ts`. `hasProgress` records whether the optional `onProgress`
sink was supplied; the result carries the refined days and the emitted
progress messages. The only failure outside the per-item try scopes is the
`getClient` error for a missing API key. -/
def generateFinalPlanContent (env : GenEnv) (basics : CourseBasics)
    (outcomes : List LearningOutcome) (skeleton : List DayPlan) (hasProgress : Bool) :
    Except Unit (List DayPlan × List String) :=
  match env.apiKey with
  | none => Except.error ()
  | some _ => Except.ok (dayLoop env hasProgress 0 skeleton)

/-- The refinement invoker with call accounting, from `refineContent` in
`geminiService.ts`: first component is the returned text or the propagated
error, second the number of remote calls issued (0 when `getClient` throws
before the call). A response whose text is missing or trims to empty falls
back to the original text. -/
def refineContentT (apiKey : Option String) (resp : Except Unit (Option String))
    (text context : String) : Except Unit String × Nat :=
  match apiKey with
  | none => (Except.error (), 0)
  | some _ =>
      match resp with
      | Except.error _ => (Except.error (), 1)
      | Except.ok t =>
          (Except.ok (match t.map jsTrim with
            | none => text
            | some s => if s = "" then text else s), 1)

/-- The refinement invoker, from `refineContent` in `geminiService.ts`. -/
def refineContent (apiKey : Option String) (resp : Except Unit (Option String))
    (text context : String) : Except Unit String :=
  (refineContentT apiKey resp text context).1

/-- Observable outcome of one `handleRefine` invocation: the target field's
value afterwards, the number of remote calls, the number of times the
field-updater callback ran. -/
structure RefineTrace where
  fieldValue : String
  remoteCalls : Nat
  callbackCalls : Nat
deriving DecidableEq

/-- The caller of the refinement invoker, from `handleRefine` in `App.tsx`:
an empty current text returns before anything runs; a successful refinement
passes the result to the callback (which overwrites the field); a caught
error leaves the field untouched and never runs the callback. -/
def handleRefine (apiKey : Option String) (resp : Except Unit (Option String))
    (currentText context fieldValue : String) : RefineTrace :=
  if currentText = "" then ⟨fieldValue, 0, 0⟩
  else
    match refineContentT apiKey resp currentText context with
    | (Except.ok res, n) => ⟨res, n, 1⟩
    | (Except.error _, n) => ⟨fieldValue, n, 0⟩

/-- Wizard navigation state of `App.tsx`: the active step and the highest
step reached so far. -/
structure NavState where
  step : Nat
  maxStepReached : Nat
deriving DecidableEq

/-- User actions of `App.tsx` that change `step` or `maxStepReached`.
`advance n` is the `advanceStep(n)` call issued by the stage-(n-1) screen's
generation handler; `progressNav n` is a progress-bar button (enabled only up
to `maxStepReached`); `gotoStep n` is a "Go to ..." shortcut shown on screen
n-1 when `maxStepReached` exceeds n-1; `back n` is the Back button of screen
n; `logo` is the navbar title (always jumps to step 1); `editStructure` is
the step-5 "Edit Structure" button; `load` is `handleLoad`, which jumps to
step 5 and marks all stages reached. -/
inductive NavEvent where
  | logo
  | advance (n : Nat)
  | progressNav (n : Nat)
  | gotoStep (n : Nat)
  | back (n : Nat)
  | editStructure
  | load
deriving DecidableEq

/-- One transition of the wizard, from the handlers of `App.tsx`. An event
whose rendering guard does not hold in the current state is a no-op. -/
def navStep (s : NavState) : NavEvent → NavState
  | NavEvent.logo => { s with step := 1 }
  | NavEvent.advance n =>
      if s.step + 1 = n ∧ 2 ≤ n ∧ n ≤ 5 then
        { step := n,
          maxStepReached := if n > s.maxStepReached then n else s.maxStepReached }
      else s
  | NavEvent.progressNav n =>
      if 1 ≤ n ∧ n ≤ 5 ∧ n ≤ s.maxStepReached then { s with step := n } else s
  | NavEvent.gotoStep n =>
      if s.step + 1 = n ∧ 2 ≤ n ∧ n ≤ 5 ∧ n ≤ s.maxStepReached then { s with step := n }
      else s
  | NavEvent.back n =>
      if s.step = n ∧ 2 ≤ n ∧ n ≤ 4 then { s with step := n - 1 } else s
  | NavEvent.editStructure =>
      if s.step = 5 then { s with step := 3 } else s
  | NavEvent.load => { step := 5, maxStepReached := 5 }

/-- Initial wizard state of `App.tsx`: step 1, highest step reached 1. -/
def navInit : NavState := { step := 1, maxStepReached := 1 }

/-- Run of the wizard from the initial state over a sequence of actions. -/
def navRun (es : List NavEvent) : NavState := es.foldl navStep navInit

/-- State invariant of the wizard: steps stay in 1..5 and the active step
never exceeds the highest step reached. -/
def navInv (s : NavState) : Prop :=
  1 ≤ s.step ∧ s.step ≤ 5 ∧ s.step ≤ s.maxStepReached ∧
    1 ≤ s.maxStepReached ∧ s.maxStepReached ≤ 5

/-- The stage-reachability property as the claim states it: any run that
unlocks a stage beyond the first must contain a stage-completion
(`advanceStep`) event. -/
def unlockOnlyByCompletion : Prop :=
  ∀ es : List NavEvent, 2 ≤ (navRun es).maxStepReached → ∃ k, NavEvent.advance k ∈ es

/-- Rendered numbering of one day's modules in `SessionPlanTable`: each module
receives the current value of the running counter together with its rendered
sub-point labels `<moduleNumber>.<subIndex+1>`. -/
def renderDayModules (c : Nat) : List ModuleContent → List (Nat × ModuleContent × List String)
  | [] => []
  | md :: rest =>
      (c, md, (List.range md.subModules.length).map
          (fun s => toString c ++ "." ++ toString (s + 1))) :: renderDayModules (c + 1) rest

/-- Rendered numbering of the whole schedule in `SessionPlanTable`: the
counter starts at the given value and keeps running across days. -/
def renderScheduleModules (c : Nat) : List DayPlan → List (List (Nat × ModuleContent × List String))
  | [] => []
  | day :: rest =>
      renderDayModules c day.modules :: renderScheduleModules (c + day.modules.length) rest

/-- The numbering computed on each render of `SessionPlanTable`: the
`globalModuleCounter` starts at 1. -/
def sessionPlanNumbering (schedule : List DayPlan) :
    List (List (Nat × ModuleContent × List String)) :=
  renderScheduleModules 1 schedule

/-- A concrete course-basics record used to evaluate the pipeline. -/
def basicsW : CourseBasics :=
  { trainerName := "Alice", courseTitle := "Leadership 101",
    duration := "1 Day", location := "KL" }

/-- A concrete course-basics record whose duration descriptor names 3 days. -/
def basicsThreeDays : CourseBasics :=
  { trainerName := "", courseTitle := "T", duration := "3 Days", location := "" }

/-- A concrete parsed module-detail response. -/
def enrichedMod : ModuleContent :=
  { id := "ai-id", title := "AI Title", subModules := ["point one", "point two"],
    methodology := "Lecture: overview", resources := "Slides", duration := "2 hours",
    slideNumbers := some "1-5" }

/-- A concrete skeleton module. -/
def skModA : ModuleContent :=
  { id := "m0", title := "Intro", subModules := [], methodology := "",
    resources := "", duration := "1 hour" }

/-- A second concrete skeleton module. -/
def skModB : ModuleContent :=
  { id := "m1", title := "Deep Dive", subModules := [], methodology := "",
    resources := "", duration := "2 hours" }

/-- A concrete one-day skeleton with two modules. -/
def skDayW : DayPlan :=
  { dayNumber := 1, iceBreaker := { title := "", description := "", duration := "" },
    recap := none, modules := [skModA, skModB],
    summary := "Key takeaways and Q&A", reviewQuestions := [] }

/-- A concrete skeleton schedule. -/
def skW : List DayPlan := [skDayW]

/-- A concrete orchestrator environment in which the module-detail call fails
exactly at day index 0, module index 1, and the day-summary call always
throws. -/
def envC1 : GenEnv :=
  { apiKey := some "k",
    detail := fun d m => if d = 0 ∧ m = 1 then Except.error () else Except.ok enrichedMod,
    daySummary := fun _ => Except.error () }

/-- A concrete skeleton day carrying the structure-stage placeholders. -/
def skDayC4 : DayPlan :=
  { dayNumber := 1, iceBreaker := { title := "", description := "", duration := "" },
    recap := none, modules := [], summary := "Key takeaways and Q&A",
    reviewQuestions := ["Q1"] }

/-- A concrete orchestrator environment whose day-summary response carries a
summary but no review-question array. -/
def envC4 : GenEnv :=
  { apiKey := some "k",
    detail := fun _ _ => Except.error (),
    daySummary := fun _ => Except.ok { summary := some "New Summary", reviewQuestions := none } }

/-- A concrete structure-generation environment whose remote response holds a
single day numbered 7. -/
def structEnvOneDay : StructEnv :=
  { apiKey := some "k", structResp := Except.ok [{ dayNumber := 7, modules := [] }],
    now := 0 }

/-- A concrete two-day structure-generation response. -/
def rawDaysW : List RawDay :=
  [{ dayNumber := 1, modules := [{ id := some "a", title := "M1", duration := "1h" }] },
   { dayNumber := 2, modules := [] }]

/-- A concrete structure-generation environment returning `rawDaysW`. -/
def structEnvW : StructEnv :=
  { apiKey := some "k", structResp := Except.ok rawDaysW, now := 42 }

/-- A concrete module with no sub-points. -/
def modW1 : ModuleContent :=
  { id := "w1", title := "A", subModules := [], methodology := "",
    resources := "", duration := "" }

/-- A second concrete module with no sub-points. -/
def modW2 : ModuleContent :=
  { id := "w2", title := "B", subModules := [], methodology := "",
    resources := "", duration := "" }

/-- A concrete module with two sub-points. -/
def modW3 : ModuleContent :=
  { id := "w3", title := "C", subModules := ["s1", "s2"], methodology := "",
    resources := "", duration := "" }

/-- A concrete two-day schedule: two modules on day 1 and one on day 2. -/
def schedW : List DayPlan :=
  [{ dayNumber := 1, iceBreaker := { title := "", description := "", duration := "" },
     recap := none, modules := [modW1, modW2], summary := "", reviewQuestions := [] },
   { dayNumber := 2, iceBreaker := { title := "", description := "", duration := "" },
     recap := some "r", modules := [modW3], summary := "", reviewQuestions := [] }]

theorem processModule_id (env : GenEnv) (d m : Nat) (orig : ModuleContent) :
    (processModule env d m orig).id = orig.id := by
  unfold processModule
  cases env.detail d m <;> rfl

theorem processModule_title (env : GenEnv) (d m : Nat) (orig : ModuleContent) :
    (processModule env d m orig).title = orig.title := by
  unfold processModule
  cases env.detail d m <;> rfl

theorem moduleLoop_fst_eq (env : GenEnv) (d : Nat) (dn : Int) (hp hp' : Bool) :
    ∀ (mods : List ModuleContent) (m0 : Nat),
      (moduleLoop env d dn hp m0 mods).1 = (moduleLoop env d dn hp' m0 mods).1 := by
  intro mods
  induction mods with
  | nil => intro m0; rfl
  | cons a rest ih =>
      intro m0
      simp only [moduleLoop]
      rw [ih (m0 + 1)]

theorem moduleLoop_fst_length (env : GenEnv) (d : Nat) (dn : Int) (hp : Bool) :
    ∀ (mods : List ModuleContent) (m0 : Nat),
      (moduleLoop env d dn hp m0 mods).1.length = mods.length := by
  intro mods
  induction mods with
  | nil => intro m0; rfl
  | cons a rest ih =>
      intro m0
      simp only [moduleLoop, List.length_cons]
      rw [ih (m0 + 1)]

theorem moduleLoop_fst_getElem (env : GenEnv) (d : Nat) (dn : Int) (hp : Bool) :
    ∀ (mods : List ModuleContent) (m0 i : Nat),
      (moduleLoop env d dn hp m0 mods).1[i]? =
        (mods[i]?).map (fun orig => processModule env d (m0 + i) orig) := by
  intro mods
  induction mods with
  | nil => intro m0 i; simp [moduleLoop]
  | cons a rest ih =>
      intro m0 i
      cases i with
      | zero => simp [moduleLoop]
      | succ j =>
          simp only [moduleLoop, List.getElem?_cons_succ]
          rw [ih (m0 + 1) j]
          have h : m0 + 1 + j = m0 + (j + 1) := by omega
          rw [h]

theorem moduleLoop_snd_empty (env : GenEnv) (d : Nat) (dn : Int) :
    ∀ (mods : List ModuleContent) (m0 : Nat),
      (moduleLoop env d dn false m0 mods).2 = [] := by
  intro mods
  induction mods with
  | nil => intro m0; rfl
  | cons a rest ih =>
      intro m0
      simp only [moduleLoop, if_neg Bool.false_ne_true, List.nil_append]
      exact ih (m0 + 1)

theorem finalizeDay_modules (env : GenEnv) (d : Nat) (day : DayPlan)
    (mods : List ModuleContent) : (finalizeDay env d day mods).modules = mods := rfl

theorem finalizeDay_summary_error (env : GenEnv) (d : Nat) (day : DayPlan)
    (mods : List ModuleContent) (h : env.daySummary d = Except.error ()) :
    (finalizeDay env d day mods).summary = day.summary ∧
      (finalizeDay env d day mods).reviewQuestions = day.reviewQuestions := by
  unfold finalizeDay
  rw [h]
  exact ⟨rfl, rfl⟩

theorem finalizeDay_summary_ok (env : GenEnv) (d : Nat) (day : DayPlan)
    (mods : List ModuleContent) (p : SummaryResp) (h : env.daySummary d = Except.ok p) :
    (finalizeDay env d day mods).summary = jsOrStr p.summary day.summary ∧
      (finalizeDay env d day mods).reviewQuestions =
        jsOrList p.reviewQuestions day.reviewQuestions := by
  unfold finalizeDay
  rw [h]
  exact ⟨rfl, rfl⟩

theorem dayLoop_fst_eq (env : GenEnv) (hp hp' : Bool) :
    ∀ (days : List DayPlan) (d0 : Nat),
      (dayLoop env hp d0 days).1 = (dayLoop env hp' d0 days).1 := by
  intro days
  induction days with
  | nil => intro d0; rfl
  | cons day rest ih =>
      intro d0
      simp only [dayLoop]
      rw [ih (d0 + 1), moduleLoop_fst_eq env d0 day.dayNumber hp hp']

theorem dayLoop_fst_length (env : GenEnv) (hp : Bool) :
    ∀ (days : List DayPlan) (d0 : Nat),
      (dayLoop env hp d0 days).1.length = days.length := by
  intro days
  induction days with
  | nil => intro d0; rfl
  | cons day rest ih =>
      intro d0
      simp only [dayLoop, List.length_cons]
      rw [ih (d0 + 1)]

theorem dayLoop_fst_getElem (env : GenEnv) (hp : Bool) :
    ∀ (days : List DayPlan) (d0 i : Nat),
      (dayLoop env hp d0 days).1[i]? =
        (days[i]?).map (fun day =>
          finalizeDay env (d0 + i) day
            (moduleLoop env (d0 + i) day.dayNumber hp 0 day.modules).1) := by
  intro days
  induction days with
  | nil => intro d0 i; simp [dayLoop]
  | cons day rest ih =>
      intro d0 i
      cases i with
      | zero => simp [dayLoop]
      | succ j =>
          simp only [dayLoop, List.getElem?_cons_succ]
          rw [ih (d0 + 1) j]
          have h : d0 + 1 + j = d0 + (j + 1) := by omega
          rw [h]

/-- C8: progress-sink noninterference — for every input (basics, outcomes,
skeleton) and every outcome of the remote calls, `generateFinalPlanContent`
computes the same schedule whether the `onProgress` sink is supplied or
omitted; the sink affects no control flow, ordering, or error handling. -/
theorem progress_sink_noninterference (env : GenEnv) (b : CourseBasics)
    (o : List LearningOutcome) (sk : List DayPlan) :
    (generateFinalPlanContent env b o sk true).map Prod.fst =
      (generateFinalPlanContent env b o sk false).map Prod.fst := by
  unfold generateFinalPlanContent
  cases env.apiKey with
  | none => rfl
  | some k =>
      simp only [Except.map]
      rw [dayLoop_fst_eq env true false sk 0]

/-- C5 (amended): `generateFinalPlanContent` raises an error exactly when the
API client cannot be constructed (missing key) — the one structural error
outside the per-item try-scopes; given a key it succeeds for every skeleton,
the empty skeleton yielding an empty schedule rather than an error, and no
remote-capability failure inside the loops ever surfaces. -/
theorem orchestrator_failure_condition (env : GenEnv) (b : CourseBasics)
    (o : List LearningOutcome) (sk : List DayPlan) (hp : Bool) :
    (env.apiKey = none → generateFinalPlanContent env b o sk hp = Except.error ()) ∧
    (∀ key, env.apiKey = some key →
       ∃ out, generateFinalPlanContent env b o sk hp = Except.ok out) ∧
    (∀ key, env.apiKey = some key →
       generateFinalPlanContent env b o [] hp = Except.ok ([], [])) := by
  refine ⟨fun h => ?_, fun key h => ?_, fun key h => ?_⟩
  · unfold generateFinalPlanContent
    rw [h]
  · unfold generateFinalPlanContent
    rw [h]
    exact ⟨_, rfl⟩
  · unfold generateFinalPlanContent
    rw [h]
    rfl

/-- C5, concrete run of `orchestrator_failure_condition`: with a key present
the orchestrator succeeds both on the empty skeleton and on a non-empty one
whose remote calls all fail. -/
theorem orchestrator_failure_condition_witness :
    generateFinalPlanContent envC1 basicsW [] [] true = Except.ok ([], []) ∧
    ∃ out, generateFinalPlanContent envC1 basicsW [] skW true = Except.ok out :=
  ⟨(orchestrator_failure_condition envC1 basicsW [] [] true).2.2 "k" rfl,
   (orchestrator_failure_condition envC1 basicsW [] skW true).2.1 "k" rfl⟩

/-- C5, counterexample to the claim as stated: with an API key present and an
empty input skeleton, `generateFinalPlanContent` does NOT raise an error — it
returns an empty schedule. -/
theorem orchestrator_empty_skeleton_counterexample :
    envC4.apiKey = some "k" ∧
    generateFinalPlanContent envC4 basicsW [] [] true = Except.ok ([], []) :=
  ⟨rfl, rfl⟩

/-- C2: identity preservation — for every skeleton and every module position,
the schedule returned by `generateFinalPlanContent` keeps the input module's
id and title at that position (on both the success and the failure branch of
the detail call), and every day keeps its module count. -/
theorem identity_preservation (env : GenEnv) (b : CourseBasics)
    (o : List LearningOutcome) (sk : List DayPlan) (hp : Bool) (key : String)
    (hkey : env.apiKey = some key) (d m : Nat) :
    ∃ out msgs, generateFinalPlanContent env b o sk hp = Except.ok (out, msgs) ∧
      out.length = sk.length ∧
      (out[d]?.map fun day => day.modules.length) =
        (sk[d]?.map fun day => day.modules.length) ∧
      ((out[d]?.bind fun day => day.modules[m]?).map ModuleContent.id) =
        ((sk[d]?.bind fun day => day.modules[m]?).map ModuleContent.id) ∧
      ((out[d]?.bind fun day => day.modules[m]?).map ModuleContent.title) =
        ((sk[d]?.bind fun day => day.modules[m]?).map ModuleContent.title) := by
  refine ⟨(dayLoop env hp 0 sk).1, (dayLoop env hp 0 sk).2, ?_, ?_, ?_, ?_, ?_⟩
  · unfold generateFinalPlanContent
    rw [hkey]
  · exact dayLoop_fst_length env hp sk 0
  · rw [dayLoop_fst_getElem env hp sk 0 d]
    cases hsk : sk[d]? with
    | none => rfl
    | some day =>
        simp only [Option.map_some', finalizeDay_modules]
        rw [moduleLoop_fst_length]
  · rw [dayLoop_fst_getElem env hp sk 0 d]
    cases hsk : sk[d]? with
    | none => rfl
    | some day =>
        simp only [Option.map_some', Option.some_bind, finalizeDay_modules]
        rw [moduleLoop_fst_getElem]
        cases day.modules[m]? with
        | none => rfl
        | some orig => simp [processModule_id]
  · rw [dayLoop_fst_getElem env hp sk 0 d]
    cases hsk : sk[d]? with
    | none => rfl
    | some day =>
        simp only [Option.map_some', Option.some_bind, finalizeDay_modules]
        rw [moduleLoop_fst_getElem]
        cases day.modules[m]? with
        | none => rfl
        | some orig => simp [processModule_title]

/-- C2, concrete run of `identity_preservation` on a two-module skeleton whose
detail call fails at module index 1 and, at index 0, returns a record with a
different id and title. -/
theorem identity_preservation_witness :
    ∃ out msgs, generateFinalPlanContent envC1 basicsW [] skW true = Except.ok (out, msgs) ∧
      out.length = skW.length ∧
      (out[0]?.map fun day => day.modules.length) =
        (skW[0]?.map fun day => day.modules.length) ∧
      ((out[0]?.bind fun day => day.modules[0]?).map ModuleContent.id) =
        ((skW[0]?.bind fun day => day.modules[0]?).map ModuleContent.id) ∧
      ((out[0]?.bind fun day => day.modules[0]?).map ModuleContent.title) =
        ((skW[0]?.bind fun day => day.modules[0]?).map ModuleContent.title) :=
  identity_preservation envC1 basicsW [] skW true "k" rfl 0 0

/-- C1: per-item failure isolation — when the module-detail call fails for
exactly one module position, `generateFinalPlanContent` still returns a
schedule in which that day keeps its module count, the failing module keeps
its original id, title, duration (and sub-points) with the sentinel
methodology text, and every other module is the enriched detail-call result
with the skeleton id and title re-applied. -/
theorem per_item_failure_isolation (env : GenEnv) (b : CourseBasics)
    (o : List LearningOutcome) (sk : List DayPlan) (hp : Bool) (key : String)
    (d0 m0 : Nat) (hkey : env.apiKey = some key)
    (hd0 : d0 < sk.length) (hm0 : m0 < ((sk.get ⟨d0, hd0⟩).modules).length)
    (hfail : env.detail d0 m0 = Except.error ())
    (hok : ∀ d m, ¬(d = d0 ∧ m = m0) → ∃ fm, env.detail d m = Except.ok fm) :
    ∃ out msgs, generateFinalPlanContent env b o sk hp = Except.ok (out, msgs) ∧
      out.length = sk.length ∧
      (∃ outDay, out[d0]? = some outDay ∧
        outDay.modules.length = (sk.get ⟨d0, hd0⟩).modules.length ∧
        (∃ failMod, outDay.modules[m0]? = some failMod ∧
          failMod.id = ((sk.get ⟨d0, hd0⟩).modules.get ⟨m0, hm0⟩).id ∧
          failMod.title = ((sk.get ⟨d0, hd0⟩).modules.get ⟨m0, hm0⟩).title ∧
          failMod.duration = ((sk.get ⟨d0, hd0⟩).modules.get ⟨m0, hm0⟩).duration ∧
          failMod.subModules = ((sk.get ⟨d0, hd0⟩).modules.get ⟨m0, hm0⟩).subModules ∧
          failMod.methodology = "Error generating content.") ∧
        (∀ m fm, m ≠ m0 → env.detail d0 m = Except.ok fm →
          outDay.modules[m]? = ((sk.get ⟨d0, hd0⟩).modules[m]?).map
            (fun orig => { fm with id := orig.id, title := orig.title }))) ∧
      (∀ d m fm, d ≠ d0 → env.detail d m = Except.ok fm →
        (out[d]?.bind fun day => day.modules[m]?) =
          ((sk[d]?.bind fun day => day.modules[m]?)).map
            (fun orig => { fm with id := orig.id, title := orig.title })) := by
  refine ⟨(dayLoop env hp 0 sk).1, (dayLoop env hp 0 sk).2, ?_, ?_, ?_, ?_⟩
  · unfold generateFinalPlanContent
    rw [hkey]
  · exact dayLoop_fst_length env hp sk 0
  · rw [dayLoop_fst_getElem env hp sk 0 d0]
    rw [List.getElem?_eq_getElem hd0]
    simp only [Option.map_some', Nat.zero_add, List.get_eq_getElem]
    refine ⟨_, rfl, ?_, ?_, ?_⟩
    · rw [finalizeDay_modules, moduleLoop_fst_length]
    · rw [finalizeDay_modules, moduleLoop_fst_getElem]
      have hm0' : m0 < (sk[d0].modules).length := hm0
      rw [List.getElem?_eq_getElem hm0']
      simp only [Option.map_some', Nat.zero_add, List.get_eq_getElem]
      refine ⟨_, rfl, ?_⟩
      unfold processModule
      rw [hfail]
      exact ⟨rfl, rfl, rfl, rfl, rfl⟩
    · intro m fm hne hdm
      rw [finalizeDay_modules, moduleLoop_fst_getElem]
      cases hmm : (sk[d0]).modules[m]? with
      | none => rfl
      | some orig =>
          simp only [Option.map_some', Nat.zero_add]
          unfold processModule
          rw [hdm]
  · intro d m fm hne hdm
    rw [dayLoop_fst_getElem env hp sk 0 d]
    cases hsk : sk[d]? with
    | none => rfl
    | some day =>
        simp only [Option.map_some', Option.some_bind, Nat.zero_add, finalizeDay_modules]
        rw [moduleLoop_fst_getElem]
        cases hmm : day.modules[m]? with
        | none => rfl
        | some orig =>
            simp only [Option.map_some', Nat.zero_add]
            unfold processModule
            rw [hdm]

/-- C1, concrete run of `per_item_failure_isolation`: on a one-day, two-module
skeleton whose detail call fails exactly at module index 1, the returned day
has two modules, module 1 keeps its skeleton identity with the sentinel
methodology, and module 0 is the enriched record with the skeleton id and
title re-applied. -/
theorem per_item_failure_isolation_witness :
    ∃ out msgs, generateFinalPlanContent envC1 basicsW [] skW true = Except.ok (out, msgs) ∧
      out.length = 1 ∧
      ∃ outDay, out[0]? = some outDay ∧
        outDay.modules.length = 2 ∧
        ∃ failMod, outDay.modules[1]? = some failMod ∧
          failMod.id = "m1" ∧ failMod.title = "Deep Dive" ∧
          failMod.duration = "2 hours" ∧
          failMod.methodology = "Error generating content." ∧
          outDay.modules[0]? = some { enrichedMod with id := "m0", title := "Intro" } := by
  obtain ⟨out, msgs, h1, h2, ⟨outDay, h3, h4, ⟨failMod, hf1, hf2, hf3, hf4, hf5, hf6⟩, h5⟩, h6⟩ :=
    per_item_failure_isolation envC1 basicsW [] skW true "k" 0 1 rfl (by decide) (by decide)
      rfl (fun d m hne => ⟨enrichedMod, by
        show (if d = 0 ∧ m = 1 then Except.error () else Except.ok enrichedMod) =
          Except.ok enrichedMod
        rw [if_neg hne]⟩)
  refine ⟨out, msgs, h1, h2, outDay, h3, h4, failMod, hf1, hf2, hf3, hf4, hf6, ?_⟩
  rw [h5 0 enrichedMod (by decide) rfl]
  rfl

/-- C4 (amended): day-finalizer failure containment — a thrown day-summary
call keeps both the placeholder summary and the placeholder review questions;
a parsed response falls back field-by-field: a missing or empty summary keeps
the placeholder summary and a missing review-question array keeps the
placeholder questions; in every case `generateFinalPlanContent` still
succeeds, so no error reaches the caller. -/
theorem day_finalizer_containment (env : GenEnv) (b : CourseBasics)
    (o : List LearningOutcome) (sk : List DayPlan) (hp : Bool) (key : String)
    (hkey : env.apiKey = some key) (d : Nat) :
    ∃ out msgs, generateFinalPlanContent env b o sk hp = Except.ok (out, msgs) ∧
      (env.daySummary d = Except.error () →
        (out[d]?.map DayPlan.summary) = (sk[d]?.map DayPlan.summary) ∧
        (out[d]?.map DayPlan.reviewQuestions) = (sk[d]?.map DayPlan.reviewQuestions)) ∧
      (∀ p, env.daySummary d = Except.ok p → (p.summary = none ∨ p.summary = some "") →
        (out[d]?.map DayPlan.summary) = (sk[d]?.map DayPlan.summary)) ∧
      (∀ p, env.daySummary d = Except.ok p → p.reviewQuestions = none →
        (out[d]?.map DayPlan.reviewQuestions) = (sk[d]?.map DayPlan.reviewQuestions)) := by
  refine ⟨(dayLoop env hp 0 sk).1, (dayLoop env hp 0 sk).2, ?_, ?_, ?_, ?_⟩
  · unfold generateFinalPlanContent
    rw [hkey]
  · intro herr
    constructor
    · rw [dayLoop_fst_getElem env hp sk 0 d]
      cases hsk : sk[d]? with
      | none => rfl
      | some day =>
          simp only [Option.map_some', Nat.zero_add]
          rw [(finalizeDay_summary_error env d day _ herr).1]
    · rw [dayLoop_fst_getElem env hp sk 0 d]
      cases hsk : sk[d]? with
      | none => rfl
      | some day =>
          simp only [Option.map_some', Nat.zero_add]
          rw [(finalizeDay_summary_error env d day _ herr).2]
  · intro p hp' hs
    rw [dayLoop_fst_getElem env hp sk 0 d]
    cases hsk : sk[d]? with
    | none => rfl
    | some day =>
        simp only [Option.map_some', Nat.zero_add]
        rw [(finalizeDay_summary_ok env d day _ p hp').1]
        cases hs with
        | inl h => rw [h]; rfl
        | inr h => rw [h]; rfl
  · intro p hp' hq
    rw [dayLoop_fst_getElem env hp sk 0 d]
    cases hsk : sk[d]? with
    | none => rfl
    | some day =>
        simp only [Option.map_some', Nat.zero_add]
        rw [(finalizeDay_summary_ok env d day _ p hp').2]
        rw [hq]
        rfl

/-- C4, concrete run of `day_finalizer_containment`: with a day-summary call
that throws, the returned day keeps the skeleton's placeholder summary and
review questions. -/
theorem day_finalizer_containment_witness :
    ∃ out msgs, generateFinalPlanContent envC1 basicsW [] skW true = Except.ok (out, msgs) ∧
      (out[0]?.map DayPlan.summary) = (skW[0]?.map DayPlan.summary) ∧
      (out[0]?.map DayPlan.reviewQuestions) = (skW[0]?.map DayPlan.reviewQuestions) := by
  obtain ⟨out, msgs, h1, h2, _, _⟩ :=
    day_finalizer_containment envC1 basicsW [] skW true "k" rfl 0
  obtain ⟨ha, hb⟩ := h2 rfl
  exact ⟨out, msgs, h1, ha, hb⟩

/-- C4, counterexample to the claim as stated: a day-summary response that is
malformed in the claim's sense (its review-question array is missing) but
carries a non-empty summary does NOT leave the day's placeholder summary in
place — the new summary is taken while only the questions keep the
placeholder. -/
theorem day_finalizer_counterexample :
    envC4.daySummary 0 = Except.ok { summary := some "New Summary", reviewQuestions := none } ∧
    generateFinalPlanContent envC4 basicsW [] [skDayC4] false =
      Except.ok ([{ skDayC4 with summary := "New Summary", reviewQuestions := ["Q1"] }], []) ∧
    "New Summary" ≠ skDayC4.summary :=
  ⟨rfl, rfl, by decide⟩

theorem hydrateDays_length (now : Nat) :
    ∀ (raw : List RawDay) (dIdx : Nat), (hydrateDays now dIdx raw).length = raw.length := by
  intro raw
  induction raw with
  | nil => intro dIdx; rfl
  | cons d rest ih =>
      intro dIdx
      simp only [hydrateDays, List.length_cons]
      rw [ih (dIdx + 1)]

theorem hydrateDays_dayNumbers (now : Nat) :
    ∀ (raw : List RawDay) (dIdx : Nat),
      (hydrateDays now dIdx raw).map DayPlan.dayNumber = raw.map RawDay.dayNumber := by
  intro raw
  induction raw with
  | nil => intro dIdx; rfl
  | cons d rest ih =>
      intro dIdx
      simp only [hydrateDays, List.map_cons]
      rw [ih (dIdx + 1)]

/-- C3 (amended): the Structure Generator derives a day count from the
duration descriptor — the largest N in 2..5 whose lowercased "N day" pattern
the lowercased descriptor contains, defaulting to 1 (a "1 day" pattern is
never tested) — but that count only parameterizes the remote request; the
skeletons actually returned mirror the remote response one-for-one, with each
day's `dayNumber` copied verbatim from the response. -/
theorem structure_day_count (env : StructEnv) (b : CourseBasics)
    (o : List LearningOutcome) (key : String) (rawDays : List RawDay)
    (hkey : env.apiKey = some key) (hresp : env.structResp = Except.ok rawDays)
    (dur : String) :
    (∃ days, generateCourseStructure env b o = Except.ok days ∧
       days.length = rawDays.length ∧
       days.map DayPlan.dayNumber = rawDays.map RawDay.dayNumber) ∧
    computeNumDays dur =
      (if jsIncludes (jsToLower dur) "5 day" then 5
       else if jsIncludes (jsToLower dur) "4 day" then 4
       else if jsIncludes (jsToLower dur) "3 day" then 3
       else if jsIncludes (jsToLower dur) "2 day" then 2
       else 1) := by
  constructor
  · refine ⟨hydrateDays env.now 0 rawDays, ?_, hydrateDays_length env.now rawDays 0,
      hydrateDays_dayNumbers env.now rawDays 0⟩
    unfold generateCourseStructure
    rw [hkey, hresp]
  · unfold computeNumDays
    cases h5 : jsIncludes (jsToLower dur) "5 day" <;>
      cases h4 : jsIncludes (jsToLower dur) "4 day" <;>
        cases h3 : jsIncludes (jsToLower dur) "3 day" <;>
          cases h2 : jsIncludes (jsToLower dur) "2 day" <;>
            simp [h5, h4, h3, h2]

/-- C3, concrete run of `structure_day_count` on a two-day response and the
descriptor "2 Days". -/
theorem structure_day_count_witness :
    (∃ days, generateCourseStructure structEnvW basicsW [] = Except.ok days ∧
       days.length = rawDaysW.length ∧
       days.map DayPlan.dayNumber = rawDaysW.map RawDay.dayNumber) ∧
    computeNumDays "2 Days" =
      (if jsIncludes (jsToLower "2 Days") "5 day" then 5
       else if jsIncludes (jsToLower "2 Days") "4 day" then 4
       else if jsIncludes (jsToLower "2 Days") "3 day" then 3
       else if jsIncludes (jsToLower "2 Days") "2 day" then 2
       else 1) :=
  structure_day_count structEnvW basicsW [] "k" rawDaysW rfl rfl "2 Days"

/-- C3, counterexample to the claim as stated: the duration descriptor
"3 Days" contains the "3 day" pattern, yet `generateCourseStructure` returns
exactly one DayPlan — numbered 7, not 1..3 — because the output mirrors the
remote response, not the derived day count. -/
theorem structure_day_count_counterexample :
    basicsThreeDays.duration = "3 Days" ∧
    jsIncludes (jsToLower basicsThreeDays.duration) "3 day" = true ∧
    (generateCourseStructure structEnvOneDay basicsThreeDays []).map List.length =
      Except.ok 1 ∧
    (generateCourseStructure structEnvOneDay basicsThreeDays []).map
      (List.map DayPlan.dayNumber) = Except.ok [7] ∧
    (1 : Nat) ≠ 3 :=
  ⟨rfl, by decide, rfl, rfl, by decide⟩

/-- C10: `refineContent` never blanks the refined field — when the remote
response's text is missing, empty, or whitespace-only, the original input
text is returned unchanged, and a successful result is always either the
original text or a non-empty string. -/
theorem refine_blank_fallback (apiKey : Option String) (resp : Except Unit (Option String))
    (text ctx key : String) (hkey : apiKey = some key) :
    (∀ t, resp = Except.ok t → (t = none ∨ ∃ s, t = some s ∧ jsTrim s = "") →
       refineContent apiKey resp text ctx = Except.ok text) ∧
    (∀ r, refineContent apiKey resp text ctx = Except.ok r → r = text ∨ r ≠ "") := by
  constructor
  · intro t hresp hcases
    unfold refineContent refineContentT
    rw [hkey, hresp]
    cases hcases with
    | inl h => rw [h]; rfl
    | inr h =>
        obtain ⟨s, hs, ht⟩ := h
        rw [hs]
        simp [ht]
  · intro r hr
    unfold refineContent refineContentT at hr
    rw [hkey] at hr
    cases resp with
    | error e => exact Except.noConfusion hr
    | ok t =>
        cases t with
        | none =>
            simp only at hr
            exact Or.inl (Except.ok.inj hr).symm
        | some s =>
            simp only [Option.map_some'] at hr
            by_cases htrim : jsTrim s = ""
            · rw [if_pos htrim] at hr
              exact Or.inl (Except.ok.inj hr).symm
            · rw [if_neg htrim] at hr
              right
              rw [← Except.ok.inj hr]
              exact htrim

/-- C10, concrete runs of `refine_blank_fallback`: a whitespace-only response
leaves the original text unchanged, and a response trimming to "Hi" yields a
result that is not empty. -/
theorem refine_blank_fallback_witness :
    refineContent (some "k") (Except.ok (some "   ")) "Original" "Module Methodology" =
      Except.ok "Original" ∧
    ("Hi" = "Original" ∨ "Hi" ≠ "") :=
  ⟨(refine_blank_fallback (some "k") (Except.ok (some "   ")) "Original"
      "Module Methodology" "k" rfl).1 (some "   ") rfl (Or.inr ⟨"   ", rfl, rfl⟩),
   (refine_blank_fallback (some "k") (Except.ok (some " Hi ")) "Original"
      "Module Methodology" "k" rfl).2 "Hi" rfl⟩

/-- C9: the refinement invoker is a no-op on empty text — `handleRefine`
returns before any remote call or callback, leaving the field unchanged — and
on a remote failure the original field value is preserved because the updater
callback is never invoked. -/
theorem refine_invoker_noop (apiKey : Option String) (resp : Except Unit (Option String))
    (ctx fieldValue currentText : String) :
    (currentText = "" →
       handleRefine apiKey resp currentText ctx fieldValue = ⟨fieldValue, 0, 0⟩) ∧
    ((refineContentT apiKey resp currentText ctx).1 = Except.error () →
       (handleRefine apiKey resp currentText ctx fieldValue).fieldValue = fieldValue ∧
       (handleRefine apiKey resp currentText ctx fieldValue).callbackCalls = 0) := by
  constructor
  · intro h
    unfold handleRefine
    rw [if_pos h]
  · intro herr
    unfold handleRefine
    by_cases hct : currentText = ""
    · rw [if_pos hct]
      exact ⟨rfl, rfl⟩
    · rw [if_neg hct]
      cases hm : refineContentT apiKey resp currentText ctx with
      | mk a b =>
          rw [hm] at herr
          cases a with
          | ok res => exact Except.noConfusion herr
          | error u => exact ⟨rfl, rfl⟩

/-- C9, concrete runs of `refine_invoker_noop`: an empty current text yields
no remote call, no callback, and an unchanged field; a throwing remote call
with non-empty text leaves the field unchanged and never runs the callback. -/
theorem refine_invoker_noop_witness :
    handleRefine (some "k") (Except.error ()) "" "Day Summary" "orig" = ⟨"orig", 0, 0⟩ ∧
    (handleRefine (some "k") (Except.error ()) "hello" "Day Summary" "orig").fieldValue =
      "orig" ∧
    (handleRefine (some "k") (Except.error ()) "hello" "Day Summary" "orig").callbackCalls =
      0 :=
  ⟨(refine_invoker_noop (some "k") (Except.error ()) "Day Summary" "orig" "").1 rfl,
   ((refine_invoker_noop (some "k") (Except.error ()) "Day Summary" "orig" "hello").2 rfl).1,
   ((refine_invoker_noop (some "k") (Except.error ()) "Day Summary" "orig" "hello").2 rfl).2⟩

theorem navStep_inv (s : NavState) (e : NavEvent) (h : navInv s) : navInv (navStep s e) := by
  obtain ⟨h1, h2, h3, h4, h5⟩ := h
  cases e <;> simp only [navStep, navInv] <;> (try split_ifs) <;> (try simp) <;> omega

theorem foldl_navStep_inv :
    ∀ (es : List NavEvent) (s : NavState), navInv s → navInv (es.foldl navStep s)
  | [], _, h => h
  | e :: es, s, h => foldl_navStep_inv es (navStep s e) (navStep_inv s e h)

/-- C7 (amended): wizard stage reachability — in every reachable state the
active step never exceeds the highest step reached and both stay within 1..5;
`maxStepReached` never decreases across any transition; navigation back to
any already-reached stage is always enabled; and `maxStepReached` grows only
through a stage-completion `advanceStep` call issued from the preceding
screen — or through loading/importing a saved course, which jumps straight
to the final stage and unlocks every stage at once. -/
theorem wizard_stage_invariants :
    (∀ es : List NavEvent, navInv (navRun es)) ∧
    (∀ (s : NavState) (e : NavEvent), navInv s →
       s.maxStepReached ≤ (navStep s e).maxStepReached) ∧
    (∀ (s : NavState) (n : Nat), 1 ≤ n → n ≤ 5 → n ≤ s.maxStepReached →
       (navStep s (NavEvent.progressNav n)).step = n) ∧
    (∀ (s : NavState) (e : NavEvent), navInv s →
       s.maxStepReached < (navStep s e).maxStepReached →
       e = NavEvent.load ∨ ∃ k, e = NavEvent.advance k ∧ s.step + 1 = k) := by
  refine ⟨?_, ?_, ?_, ?_⟩
  · intro es
    exact foldl_navStep_inv es navInit ⟨by decide, by decide, by decide, by decide, by decide⟩
  · intro s e h
    obtain ⟨h1, h2, h3, h4, h5⟩ := h
    cases e <;> simp only [navStep] <;> (try split_ifs) <;> (try simp) <;> omega
  · intro s n hn1 hn2 hn3
    simp only [navStep]
    rw [if_pos ⟨hn1, hn2, hn3⟩]
  · intro s e h hlt
    obtain ⟨h1, h2, h3, h4, h5⟩ := h
    cases e with
    | logo =>
        simp only [navStep] at hlt
        simp at hlt
    | advance n =>
        simp only [navStep] at hlt
        split_ifs at hlt with hg hgt
        · exact Or.inr ⟨n, rfl, hg.1⟩
        · simp at hlt
        · simp at hlt
    | progressNav n =>
        simp only [navStep] at hlt
        split_ifs at hlt <;> simp at hlt
    | gotoStep n =>
        simp only [navStep] at hlt
        split_ifs at hlt <;> simp at hlt
    | back n =>
        simp only [navStep] at hlt
        split_ifs at hlt <;> simp at hlt
    | editStructure =>
        simp only [navStep] at hlt
        split_ifs at hlt <;> simp at hlt
    | load => exact Or.inl rfl

/-- C7, concrete runs of `wizard_stage_invariants`: the invariant holds after
completing stages 1 and 2, and from a state with all stages unlocked the
progress bar still navigates back to stage 2. -/
theorem wizard_stage_invariants_witness :
    navInv (navRun [NavEvent.advance 2, NavEvent.advance 3]) ∧
    (navStep { step := 4, maxStepReached := 5 } (NavEvent.progressNav 2)).step = 2 :=
  ⟨wizard_stage_invariants.1 [NavEvent.advance 2, NavEvent.advance 3],
   wizard_stage_invariants.2.2.1 { step := 4, maxStepReached := 5 } 2
     (by decide) (by decide) (by decide)⟩

/-- C7, counterexample to the claim as stated: loading a saved course (the
`handleLoad` path of `App.tsx`) unlocks stage 5 without any stage having
completed, so "a stage N is unlocked only after stage N-1 has completed at
least once" fails on the code. -/
theorem wizard_unlock_counterexample : ¬ unlockOnlyByCompletion := by
  intro h
  obtain ⟨k, hk⟩ := h [NavEvent.load] (by decide)
  simp only [List.mem_singleton] at hk
  exact NavEvent.noConfusion hk

theorem renderDayModules_getElem (mods : List ModuleContent) :
    ∀ (c m : Nat),
      (renderDayModules c mods)[m]? =
        (mods[m]?).map (fun md =>
          (c + m, md, (List.range md.subModules.length).map
            (fun s => toString (c + m) ++ "." ++ toString (s + 1)))) := by
  induction mods with
  | nil => intro c m; simp [renderDayModules]
  | cons md rest ih =>
      intro c m
      cases m with
      | zero => simp [renderDayModules]
      | succ j =>
          simp only [renderDayModules, List.getElem?_cons_succ]
          rw [ih (c + 1) j]
          have h : c + 1 + j = c + (j + 1) := by omega
          rw [h]

theorem renderScheduleModules_getElem (days : List DayPlan) :
    ∀ (c d : Nat),
      (renderScheduleModules c days)[d]? =
        (days[d]?).map (fun day =>
          renderDayModules
            (c + (((days.take d).map (fun x => x.modules.length)).sum)) day.modules) := by
  induction days with
  | nil => intro c d; simp [renderScheduleModules]
  | cons day rest ih =>
      intro c d
      cases d with
      | zero => simp [renderScheduleModules]
      | succ j =>
          simp only [renderScheduleModules, List.getElem?_cons_succ, List.take_succ_cons,
            List.map_cons, List.sum_cons]
          rw [ih (c + day.modules.length) j]
          have h : c + day.modules.length + ((rest.take j).map (fun x => x.modules.length)).sum =
              c + (day.modules.length + ((rest.take j).map (fun x => x.modules.length)).sum) := by
            omega
          rw [h]

theorem flatten_getElem_block {α : Type} :
    ∀ (L : List (List α)) (d : Nat) (hd : d < L.length) (m : Nat),
      m < (L.get ⟨d, hd⟩).length →
      (L.flatten)[((L.take d).map List.length).sum + m]? = (L.get ⟨d, hd⟩)[m]? := by
  intro L
  induction L with
  | nil => intro d hd; exact absurd hd (Nat.not_lt_zero d)
  | cons a rest ih =>
      intro d hd m hm
      cases d with
      | zero =>
          simp only [List.take_zero, List.map_nil, List.sum_nil, Nat.zero_add,
            List.flatten_cons]
          have hm0 : m < a.length := hm
          rw [List.getElem?_append_left hm0]
          rfl
      | succ j =>
          simp only [List.take_succ_cons, List.map_cons, List.sum_cons, List.flatten_cons]
          have hj : j < rest.length := by
            simp only [List.length_cons] at hd
            omega
          have hle : a.length ≤ a.length + (List.map List.length (List.take j rest)).sum + m := by
            omega
          rw [List.getElem?_append_right hle]
          have h : a.length + (List.map List.length (List.take j rest)).sum + m - a.length =
              (List.map List.length (List.take j rest)).sum + m := by omega
          rw [h]
          exact ih j hj m hm

/-- C6: continuous module numbering — the number rendered for the module at
position (day d, module m) is its 1-based index in the flattening of the
schedule (days in order, modules within each day in order), never resetting
per day and unaffected by days with zero modules, and each sub-point is
labelled `<moduleNumber>.<subIndex+1>`; the numbering is recomputed by
`sessionPlanNumbering` from the schedule alone and stored in no field. -/
theorem continuous_module_numbering (schedule : List DayPlan) (d m : Nat)
    (hd : d < schedule.length) (hm : m < (schedule.get ⟨d, hd⟩).modules.length) :
    ∃ row, ((sessionPlanNumbering schedule)[d]?.bind fun dayRows => dayRows[m]?) = some row ∧
      row.1 = ((schedule.take d).map (fun day => day.modules.length)).sum + m + 1 ∧
      row.2.1 = (schedule.get ⟨d, hd⟩).modules.get ⟨m, hm⟩ ∧
      ((schedule.map DayPlan.modules).flatten)[((schedule.take d).map
          (fun day => day.modules.length)).sum + m]? = some row.2.1 ∧
      (∀ s, s < row.2.1.subModules.length →
        row.2.2[s]? = some (toString row.1 ++ "." ++ toString (s + 1))) := by
  unfold sessionPlanNumbering
  rw [renderScheduleModules_getElem]
  rw [List.getElem?_eq_getElem hd]
  simp only [Option.map_some', Option.some_bind, List.get_eq_getElem]
  rw [renderDayModules_getElem]
  have hm' : m < (schedule[d].modules).length := hm
  rw [List.getElem?_eq_getElem hm']
  simp only [Option.map_some']
  have hd2 : d < (schedule.map DayPlan.modules).length := by
    rw [List.length_map]
    exact hd
  have hm2 : m < ((schedule.map DayPlan.modules).get ⟨d, hd2⟩).length := by
    simp only [List.get_eq_getElem, List.getElem_map]
    exact hm
  have hflat := flatten_getElem_block (schedule.map DayPlan.modules) d hd2 m hm2
  refine ⟨_, rfl, by omega, rfl, ?_, ?_⟩
  · have hidx : ((schedule.take d).map (fun day => day.modules.length)).sum =
        (((schedule.map DayPlan.modules).take d).map List.length).sum := by
      rw [← List.map_take, List.map_map]
      rfl
    rw [hidx, hflat]
    simp only [List.get_eq_getElem, List.getElem_map]
    rw [List.getElem?_eq_getElem hm']
  · intro s hs
    rw [List.getElem?_map, List.getElem?_range hs]
    rfl

/-- C6, concrete run of `continuous_module_numbering` on a two-day schedule
with two modules on day 1 and one on day 2: the day-2 module is numbered 3 —
its 1-based flattening index — and its second sub-point is labelled "3.2". -/
theorem continuous_module_numbering_witness :
    ∃ row, ((sessionPlanNumbering schedW)[1]?.bind fun dayRows => dayRows[0]?) = some row ∧
      row.1 = 3 ∧ row.2.1 = modW3 ∧
      ((schedW.map DayPlan.modules).flatten)[2]? = some row.2.1 ∧
      row.2.2[1]? = some "3.2" := by
  obtain ⟨row, h1, h2, h3, h4, h5⟩ :=
    continuous_module_numbering schedW 1 0 (by decide) (by decide)
  have h2' : row.1 = 3 := h2
  have h3' : row.2.1 = modW3 := h3
  have h5' := h5 1 (by rw [h3']; decide)
  rw [h2'] at h5'
  exact ⟨row, h1, h2', h3', h4, h5'⟩
